import Mathlib

/-!
# Verification of the StackIt entity-repository layer

A shallow embedding of the storage layer (`server/storage.ts`,
`DatabaseStorage`) and of the relevant HTTP route handlers
(`server/routes.ts`) of the StackIt Q&A application, together with proofs
and refutations of the specification's testable properties.

The relational store is modelled as explicit lists of rows (one list per
table) carried in a `DB` record; each storage method becomes a pure
state-passing function translated statement-by-statement from the source.
SQL `ORDER BY` is modelled with `List.insertionSort` (the properties proved
about orderings are sortedness w.r.t. the emitted key and permutation of
the selected rows, which hold for any conforming SQL engine).  Display-only
author-join fields (name, username, profile image) returned by read paths
are not carried in the read models, since no verified property mentions
them.
-/

namespace StackIt

/-- `voteType ∈ {up, down}` (`votes.vote_type` enum in `shared/schema.ts`). -/
inductive VoteType
  | up
  | down
  deriving DecidableEq, Repr

/-- Notification `type` enum from `shared/schema.ts`. -/
inductive NotificationType
  | questionAnswered
  | answerAccepted
  | mention
  deriving DecidableEq, Repr

/-- A row of the `users` table (credential/display fields kept minimal). -/
structure User where
  id : Nat
  username : String
  name : String
  isAdmin : Bool
  deriving DecidableEq, Repr

/-- A row of the `questions` table.  `createdAt` is an abstract timestamp. -/
structure Question where
  id : Nat
  title : String
  description : String
  authorId : Nat
  tags : List String
  votes : Int
  views : Int
  acceptedAnswerId : Option Nat
  createdAt : Nat
  deriving DecidableEq, Repr

/-- A row of the `answers` table. -/
structure Answer where
  id : Nat
  content : String
  questionId : Nat
  authorId : Nat
  votes : Int
  isAccepted : Bool
  createdAt : Nat
  deriving DecidableEq, Repr

/-- A row of the `votes` table: nullable `questionId` / `answerId`. -/
structure Vote where
  id : Nat
  userId : Nat
  questionId : Option Nat
  answerId : Option Nat
  voteType : VoteType
  deriving DecidableEq, Repr

/-- A row of the `notifications` table. -/
structure Notification where
  id : Nat
  userId : Nat
  type : NotificationType
  title : String
  message : String
  questionId : Option Nat
  answerId : Option Nat
  isRead : Bool
  deriving DecidableEq, Repr

/-- A row of the `posts` table (media/tag fields kept minimal). -/
structure Post where
  id : Nat
  title : String
  content : String
  authorId : Nat
  likes : Int
  shares : Int
  createdAt : Nat
  deriving DecidableEq, Repr

/-- A row of the `post_comments` table. -/
structure PostComment where
  id : Nat
  postId : Nat
  authorId : Nat
  content : String
  createdAt : Nat
  deriving DecidableEq, Repr

/-- A row of the `post_likes` table. -/
structure PostLike where
  id : Nat
  postId : Nat
  userId : Nat
  deriving DecidableEq, Repr

/-- The database state: one list of rows per table, plus the next value of
each serial primary-key sequence used by the modelled insert paths. -/
structure DB where
  users : List User
  questions : List Question
  answers : List Answer
  votes : List Vote
  notifications : List Notification
  posts : List Post
  postComments : List PostComment
  postLikes : List PostLike
  nextAnswerId : Nat
  nextVoteId : Nat
  nextNotificationId : Nat
  nextPostLikeId : Nat
  deriving DecidableEq, Repr

/-- JavaScript truthiness of a nullable numeric id (`null`/`undefined`/`0`
are falsy): the guards `if (questionId)` in the source. -/
def truthy (o : Option Nat) : Bool :=
  o.getD 0 ≠ 0

/-- `questionId || null` in the route handler: falsy ids collapse to null. -/
def normTruthy (o : Option Nat) : Option Nat :=
  if truthy o then o else none

/-! ## Vote operations (`DatabaseStorage` vote methods, storage.ts) -/

/-- The `WHERE` conjunction built by `DatabaseStorage.getVote`: always
`votes.user_id = userId`; when `questionId` is truthy also
`votes.question_id = questionId AND votes.answer_id IS NULL`; when
`answerId` is truthy also `votes.answer_id = answerId AND
votes.question_id IS NULL`. -/
def voteMatches (userId : Nat) (oq oa : Option Nat) (v : Vote) : Bool :=
  v.userId == userId
    && (if truthy oq then v.questionId == oq && v.answerId == none else true)
    && (if truthy oa then v.answerId == oa && v.questionId == none else true)

/-- `DatabaseStorage.getVote`: first row matching the built conjunction. -/
def getVote (db : DB) (userId : Nat) (oq oa : Option Nat) : Option Vote :=
  db.votes.find? (voteMatches userId oq oa)

/-- Up-vote count for a question target (`count` over
`question_id = q AND vote_type = 'up'`). -/
def upCountQ (vs : List Vote) (q : Nat) : Nat :=
  (vs.filter fun v => v.questionId == some q && v.voteType == VoteType.up).length

/-- Down-vote count for a question target. -/
def downCountQ (vs : List Vote) (q : Nat) : Nat :=
  (vs.filter fun v => v.questionId == some q && v.voteType == VoteType.down).length

/-- Net votes for a question target: up-count minus down-count. -/
def netQ (vs : List Vote) (q : Nat) : Int :=
  (upCountQ vs q : Int) - (downCountQ vs q : Int)

/-- Up-vote count for an answer target. -/
def upCountA (vs : List Vote) (a : Nat) : Nat :=
  (vs.filter fun v => v.answerId == some a && v.voteType == VoteType.up).length

/-- Down-vote count for an answer target. -/
def downCountA (vs : List Vote) (a : Nat) : Nat :=
  (vs.filter fun v => v.answerId == some a && v.voteType == VoteType.down).length

/-- Net votes for an answer target. -/
def netA (vs : List Vote) (a : Nat) : Int :=
  (upCountA vs a : Int) - (downCountA vs a : Int)

/-- `DatabaseStorage.updateVoteCount(questionId, answerId, voteType)`:
recomputes the net tally from the `votes` table and writes it into the
denormalized `votes` column of the truthy target(s).  The `voteType`
argument is accepted but (as in the source) never used: the tally is
recomputed from scratch. -/
def updateVoteCount (db : DB) (oq oa : Option Nat) (_vt : VoteType) : DB :=
  let db1 :=
    match oq with
    | some q =>
        if q ≠ 0 then
          { db with
            questions := db.questions.map fun question =>
              if question.id = q then { question with votes := netQ db.votes q }
              else question }
        else db
    | none => db
  match oa with
  | some a =>
      if a ≠ 0 then
        { db1 with
          answers := db1.answers.map fun answer =>
            if answer.id = a then { answer with votes := netA db1.votes a }
            else answer }
      else db1
  | none => db1

/-- The value shape accepted by `insertVoteSchema` (id/createdAt omitted). -/
structure InsertVote where
  userId : Nat
  questionId : Option Nat
  answerId : Option Nat
  voteType : VoteType
  deriving DecidableEq, Repr

/-- `insertVoteSchema.parse`: `createInsertSchema(votes).omit({id, createdAt})`
with no cross-field refinement — `questionId` and `answerId` are nullable
columns, so any combination of null targets passes validation. -/
def insertVoteSchemaParse (iv : InsertVote) : Option InsertVote :=
  some iv

/-- `DatabaseStorage.createVote`: insert the row (serial id), then
recompute the tally of the insert's target fields. -/
def createVote (db : DB) (iv : InsertVote) : Vote × DB :=
  let newVote : Vote :=
    { id := db.nextVoteId, userId := iv.userId, questionId := iv.questionId,
      answerId := iv.answerId, voteType := iv.voteType }
  let db1 := { db with votes := db.votes ++ [newVote], nextVoteId := db.nextVoteId + 1 }
  (newVote, updateVoteCount db1 iv.questionId iv.answerId iv.voteType)

/-- `DatabaseStorage.updateVote`: flip `voteType` in place on the row with
the given id, then recompute the tally of the updated row's targets.
Returns `none` when no row has the id (the source would crash dereferencing
an undefined `.returning()` result there). -/
def updateVote (db : DB) (id : Nat) (vt : VoteType) : Option (Vote × DB) :=
  let db1 :=
    { db with
      votes := db.votes.map fun v => if v.id = id then { v with voteType := vt } else v }
  match db1.votes.find? (fun v => v.id == id) with
  | some updated => some (updated, updateVoteCount db1 updated.questionId updated.answerId vt)
  | none => none

/-- `DatabaseStorage.deleteVote`: read the row, delete it, and if it
existed recompute its targets' tallies (the flipped `voteType` passed in
the source is ignored by `updateVoteCount`). -/
def deleteVote (db : DB) (id : Nat) : DB :=
  let found := db.votes.find? (fun v => v.id == id)
  let db1 := { db with votes := db.votes.filter fun v => v.id ≠ id }
  match found with
  | some v =>
      updateVoteCount db1 v.questionId v.answerId
        (if v.voteType == VoteType.up then VoteType.down else VoteType.up)
  | none => db1

/-- Outcome of the `POST /api/votes` handler. -/
inductive CastVoteOutcome
  | removed
  | updated (v : Vote)
  | created (v : Vote)
  | invalidInput
  | serverError
  deriving DecidableEq, Repr

/-- The `POST /api/votes` handler (routes.ts): look up the caller's
existing vote for the target; same type → delete (toggle off); opposite
type → update in place; otherwise validate with `insertVoteSchema`
(coercing falsy target ids to null) and insert. -/
def castVote (db : DB) (userId : Nat) (oq oa : Option Nat) (vt : VoteType) :
    CastVoteOutcome × DB :=
  match getVote db userId oq oa with
  | some existing =>
      if existing.voteType = vt then
        (CastVoteOutcome.removed, deleteVote db existing.id)
      else
        match updateVote db existing.id vt with
        | some (v, db1) => (CastVoteOutcome.updated v, db1)
        | none => (CastVoteOutcome.serverError, db)
  | none =>
      match insertVoteSchemaParse
          { userId := userId, questionId := normTruthy oq,
            answerId := normTruthy oa, voteType := vt } with
      | some iv =>
          let r := createVote db iv
          (CastVoteOutcome.created r.1, r.2)
      | none => (CastVoteOutcome.invalidInput, db)

/-! ## Question / Answer operations -/

/-- Row effect of the first UPDATE of `acceptAnswer`: clear `isAccepted`
on every answer of the question. -/
def clearAccepted (questionId : Nat) (a : Answer) : Answer :=
  if a.questionId = questionId then { a with isAccepted := false } else a

/-- Row effect of the second UPDATE of `acceptAnswer`: set `isAccepted` on
the row whose id is `answerId`, whatever question it belongs to. -/
def setAccepted (answerId : Nat) (a : Answer) : Answer :=
  if a.id = answerId then { a with isAccepted := true } else a

/-- Row effect of the third UPDATE of `acceptAnswer`: point the question's
`acceptedAnswerId` at `answerId`. -/
def pointAccepted (questionId answerId : Nat) (q : Question) : Question :=
  if q.id = questionId then { q with acceptedAnswerId := some answerId } else q

/-- `DatabaseStorage.acceptAnswer(questionId, answerId)`: three sequential
updates — clear `isAccepted` on every answer of the question, set
`isAccepted` on the row whose id is `answerId` (with no check that it
belongs to the question), and point the question's `acceptedAnswerId` at
`answerId`. -/
def acceptAnswer (db : DB) (questionId answerId : Nat) : DB :=
  let db1 := { db with answers := db.answers.map (clearAccepted questionId) }
  let db2 := { db1 with answers := db1.answers.map (setAccepted answerId) }
  { db2 with questions := db2.questions.map (pointAccepted questionId answerId) }

/-- Descending `created_at` on answers (`orderBy(desc(answers.createdAt))`
in `getQuestion`). -/
def createdDescA (a b : Answer) : Prop :=
  b.createdAt ≤ a.createdAt

instance : DecidableRel createdDescA := fun a b =>
  inferInstanceAs (Decidable (b.createdAt ≤ a.createdAt))

instance : IsTotal Answer createdDescA := by
  refine ⟨fun a b => ?_⟩
  unfold createdDescA
  exact Nat.le_total b.createdAt a.createdAt

instance : IsTrans Answer createdDescA :=
  ⟨fun _ _ _ h1 h2 => Nat.le_trans h2 h1⟩

/-- The composite key of `getAnswersByQuestionId`:
`orderBy(desc(isAccepted), desc(votes), asc(createdAt))` — accepted rows
first, then higher vote counts, then earlier creation. -/
def accLe (a b : Answer) : Prop :=
  (a.isAccepted = true ∧ b.isAccepted = false)
    ∨ (a.isAccepted = b.isAccepted ∧ b.votes < a.votes)
    ∨ (a.isAccepted = b.isAccepted ∧ a.votes = b.votes ∧ a.createdAt ≤ b.createdAt)

instance : DecidableRel accLe := fun a b => by
  unfold accLe
  infer_instance

instance : IsTotal Answer accLe := by
  refine ⟨fun a b => ?_⟩
  unfold accLe
  cases ha : a.isAccepted <;> cases hb : b.isAccepted <;> simp <;> omega

instance : IsTrans Answer accLe := by
  refine ⟨fun a b c hab hbc => ?_⟩
  unfold accLe at *
  cases ha : a.isAccepted <;> cases hb : b.isAccepted <;> cases hc : c.isAccepted <;>
    simp_all <;> omega

/-- `DatabaseStorage.getAnswersByQuestionId`: the question's answers
ordered accepted-first, then votes descending, then creation ascending. -/
def getAnswersByQuestionId (db : DB) (questionId : Nat) : List Answer :=
  List.insertionSort accLe (db.answers.filter fun a => a.questionId == questionId)

/-- The read model returned by `DatabaseStorage.getQuestion` (display-only
author-join fields omitted). -/
structure QuestionView where
  id : Nat
  title : String
  description : String
  authorId : Nat
  tags : List String
  votes : Int
  views : Int
  acceptedAnswerId : Option Nat
  createdAt : Nat
  answers : List Answer
  answersCount : Nat
  deriving DecidableEq, Repr

/-- `DatabaseStorage.getQuestion`: fetch the question row, then its
answers ordered by `desc(answers.createdAt)` (note: NOT via
`getAnswersByQuestionId`), and the answer count. -/
def getQuestion (db : DB) (id : Nat) : Option QuestionView :=
  match db.questions.find? (fun q => q.id == id) with
  | none => none
  | some q =>
      let questionAnswers :=
        List.insertionSort createdDescA (db.answers.filter fun a => a.questionId == id)
      some
        { id := q.id, title := q.title, description := q.description,
          authorId := q.authorId, tags := q.tags, votes := q.votes,
          views := q.views, acceptedAnswerId := q.acceptedAnswerId,
          createdAt := q.createdAt, answers := questionAnswers,
          answersCount := questionAnswers.length }

/-- Descending `created_at` on questions (default ordering of
`getQuestions`). -/
def createdDescQ (a b : Question) : Prop :=
  b.createdAt ≤ a.createdAt

instance : DecidableRel createdDescQ := fun a b =>
  inferInstanceAs (Decidable (b.createdAt ≤ a.createdAt))

instance : IsTotal Question createdDescQ := by
  refine ⟨fun a b => ?_⟩
  unfold createdDescQ
  exact Nat.le_total b.createdAt a.createdAt

instance : IsTrans Question createdDescQ :=
  ⟨fun _ _ _ h1 h2 => Nat.le_trans h2 h1⟩

/-- The `filter` query parameter of `getQuestions`. -/
inductive QFilter
  | newest
  | unanswered
  deriving DecidableEq, Repr

/-- Case-insensitive substring match: `ilike(col, %s%)`. -/
def containsCI (hay needle : String) : Bool :=
  decide (List.IsInfix needle.toLower.toList hay.toLower.toList)

/-- The search condition of `getQuestions`: case-insensitive substring
match of the trimmed search string against title OR description. -/
def searchMatchesQ (s : String) (q : Question) : Bool :=
  containsCI q.title s.trim || containsCI q.description s.trim

/-- The row shape produced by the `getQuestions` list query: question
columns plus answer count (author display fields omitted). -/
structure QuestionListItem where
  id : Nat
  title : String
  description : String
  authorId : Nat
  tags : List String
  votes : Int
  views : Int
  acceptedAnswerId : Option Nat
  createdAt : Nat
  answersCount : Nat
  deriving DecidableEq, Repr

/-- The WHERE conjunction assembled by `DatabaseStorage.getQuestions`:
search condition when the trimmed search is nonempty, tag overlap
(`questions.tags && tags`) when tags are given, and a `NOT EXISTS` over
`answers` for the `unanswered` filter. -/
def questionConds (db : DB) (search : Option String) (tags : List String)
    (filter : Option QFilter) (q : Question) : Bool :=
  (match search with
   | some s => if s ≠ "" && s.trim ≠ "" then searchMatchesQ s q else true
   | none => true)
    && (if tags ≠ [] then q.tags.any (fun t => tags.contains t) else true)
    && (if filter == some QFilter.unanswered then
          !(db.answers.any fun a => a.questionId == q.id)
        else true)

/-- `DatabaseStorage.getQuestions`: filter, order newest-first (for every
filter value), paginate with offset/limit, and attach per-question answer
counts computed from the `answers` table. -/
def getQuestions (db : DB) (search : Option String) (tags : List String)
    (filter : Option QFilter) (limit offset : Nat) : List QuestionListItem :=
  let rows :=
    ((List.insertionSort createdDescQ
        (db.questions.filter (questionConds db search tags filter))).drop offset).take limit
  rows.map fun q =>
    { id := q.id, title := q.title, description := q.description,
      authorId := q.authorId, tags := q.tags, votes := q.votes,
      views := q.views, acceptedAnswerId := q.acceptedAnswerId,
      createdAt := q.createdAt,
      answersCount := (db.answers.filter fun a => a.questionId == q.id).length }

/-! ## Notification / answer-creation operations -/

/-- The value shape accepted by `insertNotificationSchema`. -/
structure InsertNotification where
  userId : Nat
  type : NotificationType
  title : String
  message : String
  questionId : Option Nat
  answerId : Option Nat
  deriving DecidableEq, Repr

/-- `DatabaseStorage.createNotification`: pure insert, `isRead` false. -/
def createNotification (db : DB) (n : InsertNotification) : DB :=
  { db with
    notifications :=
      db.notifications ++
        [{ id := db.nextNotificationId, userId := n.userId, type := n.type,
           title := n.title, message := n.message, questionId := n.questionId,
           answerId := n.answerId, isRead := false }],
    nextNotificationId := db.nextNotificationId + 1 }

/-- `DatabaseStorage.createAnswer`: insert with serial id. -/
def createAnswer (db : DB) (questionId authorId : Nat) (content : String)
    (now : Nat) : Answer × DB :=
  let newAnswer : Answer :=
    { id := db.nextAnswerId, content := content, questionId := questionId,
      authorId := authorId, votes := 0, isAccepted := false, createdAt := now }
  (newAnswer, { db with answers := db.answers ++ [newAnswer],
                        nextAnswerId := db.nextAnswerId + 1 })

/-- The `POST /api/questions/:id/answers` handler: create the answer, then
fetch the question and notify its author of type `question_answered`
unless the question's author is the caller.  Returns `none` when the
referenced question does not exist (the insert's foreign key on
`answers.question_id` rejects it and the handler reports an error). -/
def postAnswerRoute (db : DB) (questionId userId : Nat) (content : String)
    (now : Nat) : Option DB :=
  if db.questions.any (fun q => q.id == questionId) then
    let r := createAnswer db questionId userId content now
    let db1 := r.2
    match getQuestion db1 questionId with
    | some question =>
        if question.authorId ≠ userId then
          some (createNotification db1
            { userId := question.authorId, type := NotificationType.questionAnswered,
              title := "New Answer",
              message := "Someone answered your question: " ++ question.title,
              questionId := some questionId, answerId := some r.1.id })
        else some db1
    | none => some db1
  else none

/-- The `POST /api/questions/:questionId/answers/:answerId/accept` handler:
404 when the question is missing, 403 unless the caller authored it; then
`acceptAnswer`, and a `answer_accepted` notification to the answer's author
when `answerId` is found among the (pre-accept) question's answers and its
author is not the caller. -/
def acceptAnswerRoute (db : DB) (questionId answerId userId : Nat) : Option DB :=
  match getQuestion db questionId with
  | none => none
  | some question =>
      if question.authorId ≠ userId then none
      else
        let db1 := acceptAnswer db questionId answerId
        match question.answers.find? (fun a => a.id == answerId) with
        | some answer =>
            if answer.authorId ≠ userId then
              some (createNotification db1
                { userId := answer.authorId, type := NotificationType.answerAccepted,
                  title := "Answer Accepted",
                  message := "Your answer was accepted for: " ++ question.title,
                  questionId := some questionId, answerId := some answerId })
            else some db1
        | none => some db1

/-! ## Post like operations -/

/-- `DatabaseStorage.likePost`: insert a like row and increment the post's
denormalized counter, but only when no like row exists for the pair. -/
def likePost (db : DB) (postId userId : Nat) : DB :=
  let existingLike :=
    db.postLikes.filter fun l => l.postId == postId && l.userId == userId
  if existingLike.length = 0 then
    let db1 :=
      { db with
        postLikes := db.postLikes ++
          [({ id := db.nextPostLikeId, postId := postId, userId := userId } : PostLike)],
        nextPostLikeId := db.nextPostLikeId + 1 }
    { db1 with
      posts := db1.posts.map fun (p : Post) =>
        if p.id = postId then { p with likes := p.likes + 1 } else p }
  else db

/-- `DatabaseStorage.unlikePost`: delete the pair's like rows, then
decrement the post's counter unconditionally (the source comment says
"if a like was actually deleted" but no such check exists). -/
def unlikePost (db : DB) (postId userId : Nat) : DB :=
  let db1 :=
    { db with
      postLikes := db.postLikes.filter fun l => !(l.postId == postId && l.userId == userId) }
  { db1 with
    posts := db1.posts.map fun (p : Post) =>
      if p.id = postId then { p with likes := p.likes - 1 } else p }

/-- `DatabaseStorage.isPostLikedByUser`. -/
def isPostLikedByUser (db : DB) (postId userId : Nat) : Bool :=
  db.postLikes.any fun l => l.postId == postId && l.userId == userId

/-- The `POST /api/posts/:id/like` handler: toggle. -/
def toggleLike (db : DB) (postId userId : Nat) : DB :=
  if isPostLikedByUser db postId userId then unlikePost db postId userId
  else likePost db postId userId

/-! ## User deletion cascade -/

/-- Step 1-2 of `DatabaseStorage.deleteUser`: delete all answers to
questions authored by the user (guarded by a non-empty id list, as in the
source). -/
def delAnswersToUserQuestions (id : Nat) (db : DB) : DB :=
  let questionIds := (db.questions.filter fun q => q.authorId = id).map (·.id)
  if questionIds ≠ [] then
    { db with answers := db.answers.filter fun a => !(questionIds.contains a.questionId) }
  else db

/-- Delete all answers authored by the user. -/
def delAnswersByUser (id : Nat) (db : DB) : DB :=
  { db with answers := db.answers.filter fun a => a.authorId ≠ id }

/-- Delete all questions authored by the user. -/
def delQuestionsByUser (id : Nat) (db : DB) : DB :=
  { db with questions := db.questions.filter fun q => q.authorId ≠ id }

/-- Delete all votes by the user. -/
def delVotesByUser (id : Nat) (db : DB) : DB :=
  { db with votes := db.votes.filter fun v => v.userId ≠ id }

/-- Delete all notifications for the user. -/
def delNotificationsForUser (id : Nat) (db : DB) : DB :=
  { db with notifications := db.notifications.filter fun n => n.userId ≠ id }

/-- Delete all post likes by the user. -/
def delPostLikesByUser (id : Nat) (db : DB) : DB :=
  { db with postLikes := db.postLikes.filter fun l => l.userId ≠ id }

/-- Delete all post comments authored by the user. -/
def delPostCommentsByUser (id : Nat) (db : DB) : DB :=
  { db with postComments := db.postComments.filter fun c => c.authorId ≠ id }

/-- Delete all posts authored by the user. -/
def delPostsByUser (id : Nat) (db : DB) : DB :=
  { db with posts := db.posts.filter fun p => p.authorId ≠ id }

/-- Delete the user row itself. -/
def delUserRow (id : Nat) (db : DB) : DB :=
  { db with users := db.users.filter fun u => u.id ≠ id }

/-- `DatabaseStorage.deleteUser(id)`: the ordered cascade exactly as the
source issues it — answers to the user's questions, the user's answers,
the user's questions, votes, notifications, post likes, post comments,
posts, then the user row. -/
def deleteUser (db : DB) (id : Nat) : DB :=
  delUserRow id
    (delPostsByUser id
      (delPostCommentsByUser id
        (delPostLikesByUser id
          (delNotificationsForUser id
            (delVotesByUser id
              (delQuestionsByUser id
                (delAnswersByUser id
                  (delAnswersToUserQuestions id db))))))))

/-! ## Derived notions used to state the verified properties -/

/-- The accepted answers of a question, read off the `answers` table. -/
def acceptedAnswersOf (db : DB) (qid : Nat) : List Answer :=
  db.answers.filter fun a => a.questionId == qid && a.isAccepted

/-- The accepted-answer invariant exactly as the specification states it,
checked for the question targeted by an `acceptAnswer questionId answerId`
call: afterwards exactly one answer of that question is accepted and the
question's `acceptedAnswerId` equals its id or is unset. -/
def acceptClaimHolds (db : DB) (questionId answerId : Nat) : Bool :=
  let db1 := acceptAnswer db questionId answerId
  db1.questions.all fun q =>
    !(q.id == questionId) ||
      (match acceptedAnswersOf db1 questionId with
       | [a] => q.acceptedAnswerId == some a.id || q.acceptedAnswerId == none
       | _ => false)

/-- Adjacent-pair check that a list is ordered by the composite
accepted-first / votes-descending / created-ascending key. -/
def accOrderedB : List Answer → Bool
  | [] => true
  | [_] => true
  | a :: b :: rest => decide (accLe a b) && accOrderedB (b :: rest)

/-- The ordering contract claimed for `getQuestion`: its answer list is
ordered accepted-first, then votes descending, then creation ascending. -/
def getQuestionOrderClaim (db : DB) (id : Nat) : Bool :=
  match getQuestion db id with
  | some v => accOrderedB v.answers
  | none => true

/-- The three vote mutations of the storage layer. -/
inductive VoteMutation
  | create (iv : InsertVote)
  | flip (id : Nat) (vt : VoteType)
  | remove (id : Nat)
  deriving DecidableEq, Repr

/-- Run one vote mutation through the corresponding storage method (a
`flip` of a nonexistent id, on which the source crashes, is a no-op). -/
def applyVoteMutation (db : DB) : VoteMutation → DB
  | VoteMutation.create iv => (createVote db iv).2
  | VoteMutation.flip id vt =>
      match updateVote db id vt with
      | some r => r.2
      | none => db
  | VoteMutation.remove id => deleteVote db id

/-- The target(s) whose tally a mutation recomputes: the truthy target
fields of the inserted / flipped / removed vote row. -/
def mutTargets (db : DB) : VoteMutation → Option Nat × Option Nat
  | VoteMutation.create iv => (normTruthy iv.questionId, normTruthy iv.answerId)
  | VoteMutation.flip id _ =>
      match db.votes.find? (fun v => v.id == id) with
      | some v => (normTruthy v.questionId, normTruthy v.answerId)
      | none => (none, none)
  | VoteMutation.remove id =>
      match db.votes.find? (fun v => v.id == id) with
      | some v => (normTruthy v.questionId, normTruthy v.answerId)
      | none => (none, none)

/-- The vote rows of a given user on a given target (a question or an
answer, whichever of the two ids is truthy). -/
def votesForTarget (vs : List Vote) (u : Nat) (oq oa : Option Nat) : List Vote :=
  vs.filter fun v =>
    v.userId == u && ((truthy oq && v.questionId == oq) || (truthy oa && v.answerId == oa))

/-- Whether any Answer, Question, Vote, Notification, PostLike,
PostComment, Post or User row references `id` as its author/user (or is
the user row itself). -/
def referencesUser (db : DB) (id : Nat) : Bool :=
  db.answers.any (fun a => a.authorId == id)
    || db.questions.any (fun q => q.authorId == id)
    || db.votes.any (fun v => v.userId == id)
    || db.notifications.any (fun n => n.userId == id)
    || db.postLikes.any (fun l => l.userId == id)
    || db.postComments.any (fun c => c.authorId == id)
    || db.posts.any (fun p => p.authorId == id)
    || db.users.any (fun u => u.id == id)

/-! ## Concrete states used by counterexamples and witnesses -/

/-- The empty database, with every serial sequence at 1. -/
def emptyDB : DB :=
  { users := [], questions := [], answers := [], votes := [], notifications := [],
    posts := [], postComments := [], postLikes := [],
    nextAnswerId := 1, nextVoteId := 1, nextNotificationId := 1, nextPostLikeId := 1 }

/-- A question used by concrete states. -/
def exQuestion : Question :=
  { id := 1, title := "How to X?", description := "details", authorId := 10,
    tags := ["typescript"], votes := 0, views := 0, acceptedAnswerId := none,
    createdAt := 5 }

/-- A second question (id 2, another author). -/
def exQuestion2 : Question :=
  { exQuestion with id := 2, authorId := 11, createdAt := 6 }

/-- An answer to question 1. -/
def exAnswer : Answer :=
  { id := 1, content := "Do Y", questionId := 1, authorId := 20, votes := 5,
    isAccepted := false, createdAt := 1 }

/-- An answer to question 2. -/
def exAnswer2 : Answer :=
  { id := 2, content := "Do Z", questionId := 2, authorId := 21, votes := 0,
    isAccepted := false, createdAt := 2 }

/-- A post used by concrete states. -/
def exPost : Post :=
  { id := 1, title := "p", content := "c", authorId := 3, likes := 0, shares := 0,
    createdAt := 0 }

/-- Two questions each with one answer: `acceptAnswer 1 2` crosses them. -/
def exDBCross : DB :=
  { emptyDB with
    questions := [exQuestion, exQuestion2],
    answers := [exAnswer, exAnswer2],
    nextAnswerId := 3 }

/-- Question 1 with an accepted high-vote early answer and a later
unaccepted answer: exposes `getQuestion`'s ordering. -/
def exDBOrder : DB :=
  { emptyDB with
    questions := [exQuestion],
    answers := [{ exAnswer with isAccepted := true },
                { exAnswer2 with questionId := 1 }],
    nextAnswerId := 3 }

/-- The read model `getQuestion exDBOrder 1` produces: question 1 with its
two answers ordered newest-first. -/
def exViewOrder : QuestionView :=
  { id := 1, title := "How to X?", description := "details", authorId := 10,
    tags := ["typescript"], votes := 0, views := 0, acceptedAnswerId := none,
    createdAt := 5,
    answers := [{ exAnswer2 with questionId := 1 }, { exAnswer with isAccepted := true }],
    answersCount := 2 }

/-- One question, no votes: the toggle scenario's starting state. -/
def exDBVote : DB :=
  { emptyDB with questions := [exQuestion] }

/-- The list row `getQuestions exDBVote` produces for question 1, which
has no answers. -/
def exItemUnanswered : QuestionListItem :=
  { id := 1, title := "How to X?", description := "details", authorId := 10,
    tags := ["typescript"], votes := 0, views := 0, acceptedAnswerId := none,
    createdAt := 5, answersCount := 0 }

/-- One post, no likes. -/
def exDBPost : DB :=
  { emptyDB with posts := [exPost] }

/-- Two users' content for the notification scenario: question 1 authored
by user 10, answer 1 (to question 1) authored by user 20. -/
def exDBNotif : DB :=
  { emptyDB with
    questions := [exQuestion],
    answers := [exAnswer],
    nextAnswerId := 2 }

/-- A full household for the user-deletion cascade. -/
def exDBCascade : DB :=
  { emptyDB with
    users := [{ id := 10, username := "u10", name := "U", isAdmin := false },
              { id := 11, username := "u11", name := "V", isAdmin := false }],
    questions := [exQuestion, exQuestion2],
    answers := [exAnswer, exAnswer2],
    votes := [{ id := 1, userId := 10, questionId := some 2, answerId := none,
                voteType := VoteType.up }],
    notifications := [{ id := 1, userId := 10, type := NotificationType.questionAnswered,
                        title := "t", message := "m", questionId := some 1,
                        answerId := none, isRead := false }],
    posts := [{ exPost with authorId := 10 }],
    postComments := [{ id := 1, postId := 1, authorId := 10, content := "c",
                       createdAt := 0 }],
    postLikes := [{ id := 1, postId := 1, userId := 10 }] }

/-! ## Shared helper lemmas -/

/-- A map fixing every member of a list is the identity on it. -/
theorem map_eq_self_of {α : Type} {l : List α} {f : α → α} (h : ∀ x ∈ l, f x = x) :
    l.map f = l := by
  induction l with
  | nil => rfl
  | cons x xs ih =>
      simp only [List.map_cons, h x (List.mem_cons_self x xs),
        ih fun y hy => h y (List.mem_cons_of_mem x hy)]

/-- Members of a list with pairwise-distinct keys are equal when their
keys are. -/
theorem eq_of_nodup_key {α β : Type} {key : α → β} {l : List α}
    (hn : (l.map key).Nodup) {a b : α} (ha : a ∈ l) (hb : b ∈ l)
    (h : key a = key b) : a = b :=
  List.inj_on_of_nodup_map hn ha hb h

/-- `updateVoteCount` never touches the `votes` table. -/
theorem updateVoteCount_votes (db : DB) (oq oa : Option Nat) (vt : VoteType) :
    (updateVoteCount db oq oa vt).votes = db.votes := by
  unfold updateVoteCount
  rcases oq with _ | q <;> rcases oa with _ | a <;> simp only <;>
    (try split) <;> (try split) <;> rfl

/-- `updateVoteCount` with a null answer target never touches `answers`. -/
theorem updateVoteCount_answers_none (db : DB) (oq : Option Nat) (vt : VoteType) :
    (updateVoteCount db oq none vt).answers = db.answers := by
  unfold updateVoteCount
  rcases oq with _ | q <;> simp only <;> (try split) <;> rfl

/-- `updateVoteCount` with a null question target never touches
`questions`. -/
theorem updateVoteCount_questions_none (db : DB) (oa : Option Nat) (vt : VoteType) :
    (updateVoteCount db none oa vt).questions = db.questions := by
  unfold updateVoteCount
  rcases oa with _ | a <;> simp only <;> (try split) <;> rfl

/-- `updateVoteCount` on a truthy question target writes the recomputed
net tally into that question row. -/
theorem updateVoteCount_questions_some (db : DB) (q : Nat) (oa : Option Nat)
    (vt : VoteType) (hq : q ≠ 0) :
    (updateVoteCount db (some q) oa vt).questions =
      db.questions.map fun qu =>
        if qu.id = q then { qu with votes := netQ db.votes q } else qu := by
  unfold updateVoteCount
  rcases oa with _ | a <;> simp only [hq, if_true] <;> (try split) <;> rfl

/-- `updateVoteCount` on a truthy answer target writes the recomputed net
tally into that answer row. -/
theorem updateVoteCount_answers_some (db : DB) (a : Nat) (oq : Option Nat)
    (vt : VoteType) (ha : a ≠ 0) :
    (updateVoteCount db oq (some a) vt).answers =
      db.answers.map fun an =>
        if an.id = a then { an with votes := netA db.votes a } else an := by
  unfold updateVoteCount
  rcases oq with _ | q <;> simp only [ha, if_true] <;> (try split) <;>
    (try split) <;> rfl

/-- `updateVoteCount` leaves the notification table and the vote-id
sequence unchanged. -/
theorem updateVoteCount_rest (db : DB) (oq oa : Option Nat) (vt : VoteType) :
    (updateVoteCount db oq oa vt).notifications = db.notifications
      ∧ (updateVoteCount db oq oa vt).nextVoteId = db.nextVoteId := by
  unfold updateVoteCount
  rcases oq with _ | q <;> rcases oa with _ | a <;> simp only <;>
    (try refine ⟨?_, ?_⟩) <;> (try split) <;> (try split) <;>
    first
      | rfl
      | trivial

/-! ## C1: accepted-answer exclusivity of `acceptAnswer` -/

/-- A row whose id is not the targeted one is never accepted-for-`qid`
after the two answer UPDATEs of `acceptAnswer`. -/
theorem acceptRow_skip (qid aid : Nat) (y : Answer) (hy : y.id ≠ aid) :
    ((setAccepted aid (clearAccepted qid y)).questionId == qid
        && (setAccepted aid (clearAccepted qid y)).isAccepted) = false := by
  unfold clearAccepted setAccepted
  by_cases hq : y.questionId = qid <;> simp [hq, hy]

/-- After the two answer UPDATEs of `acceptAnswer`, the rows that are
accepted and belong to `qid` are exactly the targeted row, provided it
belongs to `qid` and row ids are pairwise distinct. -/
theorem acceptFilter_core (qid aid : Nat) (a : Answer) (haid : a.id = aid)
    (haq : a.questionId = qid) :
    ∀ l : List Answer, a ∈ l → (l.map Answer.id).Nodup →
      (((l.map (clearAccepted qid)).map (setAccepted aid)).filter
          fun x => x.questionId == qid && x.isAccepted) =
        [{ a with isAccepted := true }] := by
  intro l
  induction l with
  | nil => intro h; cases h
  | cons x xs ih =>
      intro ha hnodup
      rw [List.map_cons, List.nodup_cons] at hnodup
      obtain ⟨hxid, hxs⟩ := hnodup
      rcases List.mem_cons.mp ha with rfl | hmem
      · have hhead : setAccepted aid (clearAccepted qid a) = { a with isAccepted := true } := by
          unfold clearAccepted setAccepted
          simp [haq, haid]
        have hrest :
            ((xs.map (clearAccepted qid)).map (setAccepted aid)).filter
              (fun z => z.questionId == qid && z.isAccepted) = [] := by
          rw [List.map_map]
          refine List.filter_eq_nil_iff.mpr ?_
          intro z hz
          obtain ⟨y, hy, rfl⟩ := List.mem_map.mp hz
          have hyid : y.id ≠ aid := by
            intro hcontra
            exact hxid (by rw [haid, ← hcontra]; exact List.mem_map_of_mem Answer.id hy)
          simp [acceptRow_skip qid aid y hyid]
        simp only [List.map_cons, List.filter_cons, hhead]
        rw [hrest]
        simp [haq]
      · have hxaid : x.id ≠ aid := by
          intro hcontra
          exact hxid (by rw [hcontra, ← haid]; exact List.mem_map_of_mem Answer.id hmem)
        simp only [List.map_cons, List.filter_cons, acceptRow_skip qid aid x hxaid]
        exact ih hmem hxs

/-- C1 counterexample: two questions each with one answer (answer 1 of
question 1, answer 2 of question 2); the call `acceptAnswer 1 2` — an
`answerId` belonging to a different question — leaves question 1 with
zero accepted answers while its `acceptedAnswerId` is set to 2, violating
the invariant the claim asserts for every `answerId` argument. -/
theorem acceptClaim_cross_counterexample : acceptClaimHolds exDBCross 1 2 = false := by
  decide

/-- C1 (amended): when `answerId` does identify an answer of the question
(and row ids are pairwise distinct), `acceptAnswer` leaves exactly one
accepted answer on that question — the targeted one — and points the
question's `acceptedAnswerId` at it. -/
theorem acceptAnswer_exclusive (db : DB) (qid aid : Nat) (a : Answer)
    (ha : a ∈ db.answers) (haid : a.id = aid) (haq : a.questionId = qid)
    (hnodup : (db.answers.map Answer.id).Nodup) :
    acceptedAnswersOf (acceptAnswer db qid aid) qid = [{ a with isAccepted := true }]
      ∧ ∀ q ∈ (acceptAnswer db qid aid).questions, q.id = qid →
          q.acceptedAnswerId = some aid := by
  constructor
  · have hganswers :
        (acceptAnswer db qid aid).answers =
          (db.answers.map (clearAccepted qid)).map (setAccepted aid) := rfl
    unfold acceptedAnswersOf
    rw [hganswers]
    exact acceptFilter_core qid aid a haid haq db.answers ha hnodup
  · intro q hq hid
    have hgq :
        (acceptAnswer db qid aid).questions =
          db.questions.map (pointAccepted qid aid) := rfl
    rw [hgq] at hq
    obtain ⟨q0, _, rfl⟩ := List.mem_map.mp hq
    unfold pointAccepted at hid ⊢
    by_cases h : q0.id = qid
    · simp [h]
    · simp [h] at hid

/-- C1 witness: the amended theorem applied to a concrete state in which
answer 1 belongs to question 1. -/
theorem acceptAnswer_exclusive_witness :
    acceptedAnswersOf (acceptAnswer exDBNotif 1 1) 1 = [{ exAnswer with isAccepted := true }] :=
  (acceptAnswer_exclusive exDBNotif 1 1 exAnswer (by decide) (by decide) (by decide)
    (by decide)).1

/-! ## C4: ordering of the answer list returned by `getQuestion` -/

/-- C4 counterexample: question 1 has an accepted early answer (id 1) and
a later unaccepted one (id 2); `getQuestion` returns them newest-first
(`[2, 1]`), not accepted-first as the claim states. -/
theorem getQuestionOrder_counterexample : getQuestionOrderClaim exDBOrder 1 = false := by
  decide

/-- C4 (amended): the answer list returned by `getQuestion` consists of
exactly the question's answers ordered by descending creation time; the
accepted-first / votes-descending / creation-ascending ordering is the one
produced by `getAnswersByQuestionId` (which `getQuestion` does not use). -/
theorem getQuestion_answer_order (db : DB) (id : Nat) (v : QuestionView)
    (h : getQuestion db id = some v) :
    v.answers.Sorted createdDescA
      ∧ v.answers.Perm (db.answers.filter fun a => a.questionId == id)
      ∧ (getAnswersByQuestionId db id).Sorted accLe
      ∧ (getAnswersByQuestionId db id).Perm (db.answers.filter fun a => a.questionId == id) := by
  unfold getQuestion at h
  cases hf : db.questions.find? (fun q => q.id == id) with
  | none => rw [hf] at h; cases h
  | some q =>
      rw [hf] at h
      injection h with h2
      subst h2
      exact ⟨List.sorted_insertionSort createdDescA _,
        List.perm_insertionSort createdDescA _,
        List.sorted_insertionSort accLe _,
        List.perm_insertionSort accLe _⟩

/-- C4 witness: the amended theorem applied to the concrete two-answer
state. -/
theorem getQuestion_answer_order_witness :
    exViewOrder.answers.Sorted createdDescA
      ∧ exViewOrder.answers.Perm
          (exDBOrder.answers.filter fun a => a.questionId == 1)
      ∧ (getAnswersByQuestionId exDBOrder 1).Sorted accLe
      ∧ (getAnswersByQuestionId exDBOrder 1).Perm
          (exDBOrder.answers.filter fun a => a.questionId == 1) :=
  getQuestion_answer_order exDBOrder 1 exViewOrder (by decide)

/-! ## C7: the `unanswered` filter of `getQuestions` -/

/-- C7: every question returned by `getQuestions` under the `unanswered`
filter has no answer rows referencing its id (and its reported answer
count is zero). -/
theorem getQuestions_unanswered (db : DB) (search : Option String)
    (tags : List String) (limit offset : Nat) :
    ∀ item ∈ getQuestions db search tags (some QFilter.unanswered) limit offset,
      item.answersCount = 0
        ∧ (db.answers.filter fun a => a.questionId == item.id).length = 0 := by
  intro item hitem
  unfold getQuestions at hitem
  obtain ⟨q, hq, rfl⟩ := List.mem_map.mp hitem
  have hq1 : q ∈ List.insertionSort createdDescQ
      (db.questions.filter (questionConds db search tags (some QFilter.unanswered))) :=
    List.drop_subset _ _ (List.take_subset _ _ hq)
  have hq2 : q ∈ db.questions.filter
      (questionConds db search tags (some QFilter.unanswered)) :=
    (List.mem_insertionSort createdDescQ).mp hq1
  have hcond := (List.mem_filter.mp hq2).2
  unfold questionConds at hcond
  simp only [Bool.and_eq_true] at hcond
  obtain ⟨_, hunanswered⟩ := hcond
  have hbeq : (some QFilter.unanswered == some QFilter.unanswered) = true := rfl
  rw [if_pos hbeq, Bool.not_eq_true'] at hunanswered
  have hnil : (db.answers.filter fun a => a.questionId == q.id) = [] :=
    List.filter_eq_nil_iff.mpr fun a ha => by
      simp [List.any_eq_false.mp hunanswered a ha]
  exact ⟨by simp [hnil], by simp [hnil]⟩

/-- C7 witness: the theorem applied at a concrete state in which question
1 has no answers and is returned by the `unanswered` filter. -/
theorem getQuestions_unanswered_witness :
    exItemUnanswered.answersCount = 0
      ∧ (exDBVote.answers.filter fun a => a.questionId == exItemUnanswered.id).length = 0 :=
  getQuestions_unanswered exDBVote none [] 20 0 exItemUnanswered (by decide)

/-! ## C5: the `deleteUser` cascade -/

/-- C5: after `deleteUser id` no row of any table references `id` as its
author/user (and the user row itself is gone), and the deletions are the
stated ordered composition — answers to the user's questions, the user's
answers, the user's questions, votes, notifications, post likes, post
comments, posts, then the user row. -/
theorem deleteUser_cascade (db : DB) (id : Nat) :
    referencesUser (deleteUser db id) id = false
      ∧ deleteUser db id =
          delUserRow id
            (delPostsByUser id
              (delPostCommentsByUser id
                (delPostLikesByUser id
                  (delNotificationsForUser id
                    (delVotesByUser id
                      (delQuestionsByUser id
                        (delAnswersByUser id
                          (delAnswersToUserQuestions id db)))))))) := by
  refine ⟨?_, rfl⟩
  unfold referencesUser
  simp only [Bool.or_eq_false_iff, List.any_eq_false]
  refine ⟨⟨⟨⟨⟨⟨⟨?_, ?_⟩, ?_⟩, ?_⟩, ?_⟩, ?_⟩, ?_⟩, ?_⟩ <;>
    intro x hx <;>
    simp only [deleteUser, delUserRow, delPostsByUser, delPostCommentsByUser,
      delPostLikesByUser, delNotificationsForUser, delVotesByUser,
      delQuestionsByUser, delAnswersByUser, List.mem_filter] at hx <;>
    simp_all

/-! ## C8 / C10: the like toggle and the unconditional unlike decrement -/

/-- `likePost` on a state with no like row for the pair: insert the row
and increment the post's counter. -/
theorem likePost_of_not_liked (db : DB) (postId userId : Nat)
    (h : db.postLikes.filter (fun l => l.postId == postId && l.userId == userId) = []) :
    likePost db postId userId =
      { db with
        postLikes := db.postLikes ++
          [{ id := db.nextPostLikeId, postId := postId, userId := userId }],
        nextPostLikeId := db.nextPostLikeId + 1,
        posts := db.posts.map fun p =>
          if p.id = postId then { p with likes := p.likes + 1 } else p } := by
  unfold likePost
  rw [h]
  rfl

/-- C10: `unlikePost` on a state with no like row for the pair leaves the
like rows unchanged but still decrements the post's counter; a second call
decrements it again, so repeated calls drive it arbitrarily low. -/
theorem unlikePost_without_like (db : DB) (postId userId : Nat)
    (hnone : ∀ l ∈ db.postLikes, ¬(l.postId = postId ∧ l.userId = userId)) :
    (unlikePost db postId userId).postLikes = db.postLikes
      ∧ (unlikePost db postId userId).posts
          = db.posts.map (fun p => if p.id = postId then { p with likes := p.likes - 1 } else p)
      ∧ (unlikePost (unlikePost db postId userId) postId userId).posts
          = db.posts.map (fun p => if p.id = postId then { p with likes := p.likes - 2 } else p) := by
  refine ⟨?_, rfl, ?_⟩
  · unfold unlikePost
    refine List.filter_eq_self.mpr ?_
    intro l hl
    have hn := hnone l hl
    simp only [Bool.not_eq_true', Bool.and_eq_false_iff]
    by_cases h1 : l.postId = postId
    · right
      simp only [beq_eq_false_iff_ne, ne_eq]
      intro h2
      exact hn ⟨h1, h2⟩
    · left
      simp [h1]
  · have hpp : (unlikePost (unlikePost db postId userId) postId userId).posts
        = ((db.posts.map fun p =>
              if p.id = postId then { p with likes := p.likes - 1 } else p).map
            fun p => if p.id = postId then { p with likes := p.likes - 1 } else p) := rfl
    rw [hpp, List.map_map]
    refine List.map_congr_left ?_
    intro p _
    by_cases h : p.id = postId
    · have harith : p.likes - 1 - 1 = p.likes - 2 := by ring
      simp [Function.comp, h, harith]
    · simp [Function.comp, h]

/-- C10 witness: both calls applied to the concrete one-post state with no
likes: the counter goes to −1 and then −2 while the like table stays
empty. -/
theorem unlikePost_without_like_witness :
    (unlikePost exDBPost 1 9).postLikes = exDBPost.postLikes
      ∧ (unlikePost exDBPost 1 9).posts
          = exDBPost.posts.map (fun p => if p.id = 1 then { p with likes := p.likes - 1 } else p)
      ∧ (unlikePost (unlikePost exDBPost 1 9) 1 9).posts
          = exDBPost.posts.map (fun p => if p.id = 1 then { p with likes := p.likes - 2 } else p) :=
  unlikePost_without_like exDBPost 1 9 (by decide)

/-- C8: toggling a like twice, starting from a state with no like row for
the pair, restores the like table and the posts table (hence the post's
like counter) exactly. -/
theorem toggleLike_twice (db : DB) (postId userId : Nat)
    (hnone : ∀ l ∈ db.postLikes, ¬(l.postId = postId ∧ l.userId = userId)) :
    (toggleLike (toggleLike db postId userId) postId userId).postLikes = db.postLikes
      ∧ (toggleLike (toggleLike db postId userId) postId userId).posts = db.posts := by
  have hpred : ∀ l ∈ db.postLikes, (l.postId == postId && l.userId == userId) = false := by
    intro l hl
    have hn := hnone l hl
    simp only [Bool.and_eq_false_iff]
    by_cases h1 : l.postId = postId
    · right
      simp only [beq_eq_false_iff_ne, ne_eq]
      intro h2
      exact hn ⟨h1, h2⟩
    · left
      simp [h1]
  have hnotliked : isPostLikedByUser db postId userId = false :=
    List.any_eq_false.mpr fun l hl => by simp [hpred l hl]
  have hfil : db.postLikes.filter (fun l => l.postId == postId && l.userId == userId) = [] :=
    List.filter_eq_nil_iff.mpr fun l hl => by simp [hpred l hl]
  have h1 : toggleLike db postId userId = likePost db postId userId := by
    unfold toggleLike
    rw [hnotliked]
    rfl
  rw [h1, likePost_of_not_liked db postId userId hfil]
  set newLike : PostLike :=
    { id := db.nextPostLikeId, postId := postId, userId := userId } with hnew
  have hliked : isPostLikedByUser
      { db with
        postLikes := db.postLikes ++ [newLike],
        nextPostLikeId := db.nextPostLikeId + 1,
        posts := db.posts.map fun p =>
          if p.id = postId then { p with likes := p.likes + 1 } else p }
      postId userId = true := by
    refine List.any_eq_true.mpr ?_
    refine ⟨newLike, List.mem_append_right _ (List.mem_singleton_self _), ?_⟩
    simp [hnew]
  have h2 : toggleLike
      { db with
        postLikes := db.postLikes ++ [newLike],
        nextPostLikeId := db.nextPostLikeId + 1,
        posts := db.posts.map fun p =>
          if p.id = postId then { p with likes := p.likes + 1 } else p }
      postId userId
      = unlikePost
          { db with
            postLikes := db.postLikes ++ [newLike],
            nextPostLikeId := db.nextPostLikeId + 1,
            posts := db.posts.map fun p =>
              if p.id = postId then { p with likes := p.likes + 1 } else p }
          postId userId := by
    unfold toggleLike
    rw [hliked]
    rfl
  rw [h2]
  constructor
  · show (db.postLikes ++ [newLike]).filter
        (fun l => !(l.postId == postId && l.userId == userId)) = db.postLikes
    rw [List.filter_append]
    have hkeep : db.postLikes.filter
        (fun l => !(l.postId == postId && l.userId == userId)) = db.postLikes :=
      List.filter_eq_self.mpr fun l hl => by simp [hpred l hl]
    have hdrop : ([newLike].filter
        fun l => !(l.postId == postId && l.userId == userId)) = [] := by
      simp [hnew]
    rw [hkeep, hdrop, List.append_nil]
  · show ((db.posts.map fun p =>
          if p.id = postId then { p with likes := p.likes + 1 } else p).map
        fun p => if p.id = postId then { p with likes := p.likes - 1 } else p) = db.posts
    rw [List.map_map]
    refine map_eq_self_of ?_
    intro p _
    by_cases h : p.id = postId
    · have harith : p.likes + 1 - 1 = p.likes := by ring
      simp [Function.comp, h, harith]
      rw [← h]
    · simp [Function.comp, h]

/-- C8 witness: the toggle applied twice to the concrete one-post state
with no likes. -/
theorem toggleLike_twice_witness :
    (toggleLike (toggleLike exDBPost 1 9) 1 9).postLikes = exDBPost.postLikes
      ∧ (toggleLike (toggleLike exDBPost 1 9) 1 9).posts = exDBPost.posts :=
  toggleLike_twice exDBPost 1 9 (by decide)

/-! ## C3: the denormalized tally after every vote mutation -/

/-- A truthy-normalized id is the underlying id, and nonzero. -/
theorem normTruthy_eq_some {o : Option Nat} {x : Nat} (h : normTruthy o = some x) :
    o = some x ∧ x ≠ 0 := by
  unfold normTruthy truthy at h
  rcases o with _ | y
  · simp at h
  · by_cases hy : y = 0
    · subst hy
      simp at h
    · simp only [Option.getD_some, ne_eq, hy, not_false_eq_true, decide_not,
        Bool.not_eq_true', decide_eq_false_iff_not, if_true, if_pos,
        Option.some.injEq] at h
      simp [hy] at h
      exact ⟨by rw [h], by rw [← h]; exact hy⟩

/-- After `updateVoteCount`, every truthy target's stored tally equals the
net count recomputed from the (unchanged) `votes` table. -/
theorem updateVoteCount_consistent (db : DB) (oq oa : Option Nat) (vt : VoteType) :
    (∀ q, normTruthy oq = some q →
        ∀ qu ∈ (updateVoteCount db oq oa vt).questions, qu.id = q →
          qu.votes = netQ (updateVoteCount db oq oa vt).votes q)
      ∧ (∀ a, normTruthy oa = some a →
          ∀ an ∈ (updateVoteCount db oq oa vt).answers, an.id = a →
            an.votes = netA (updateVoteCount db oq oa vt).votes a) := by
  constructor
  · intro q hq qu hqu hid
    obtain ⟨rfl, hq0⟩ := normTruthy_eq_some hq
    rw [updateVoteCount_questions_some db q oa vt hq0] at hqu
    rw [updateVoteCount_votes]
    obtain ⟨qu0, _, rfl⟩ := List.mem_map.mp hqu
    by_cases h : qu0.id = q
    · simp [h]
    · simp [h] at hid
  · intro a ha an han hid
    obtain ⟨rfl, ha0⟩ := normTruthy_eq_some ha
    rw [updateVoteCount_answers_some db a oq vt ha0] at han
    rw [updateVoteCount_votes]
    obtain ⟨an0, _, rfl⟩ := List.mem_map.mp han
    by_cases h : an0.id = a
    · simp [h]
    · simp [h] at hid

/-- The in-place `voteType` flip preserves ids, so looking up by id after
the UPDATE finds the updated image of the row found before it. -/
theorem find?_id_map_flip (vs : List Vote) (id : Nat) (vt : VoteType) :
    ((vs.map fun v => if v.id = id then { v with voteType := vt } else v).find?
        (fun v => v.id == id))
      = (vs.find? (fun v => v.id == id)).map
          fun v => if v.id = id then { v with voteType := vt } else v := by
  induction vs with
  | nil => rfl
  | cons x xs ih =>
      rw [List.map_cons]
      by_cases h : x.id = id <;> simp [List.find?_cons, h, ih]

/-- C3: after each of the three vote mutations — insert, in-place flip,
delete — the mutated target's stored `votes` field equals the up-count
minus the down-count over the vote rows for that target. -/
theorem voteMutation_tally (db : DB) (m : VoteMutation) :
    (∀ q, (mutTargets db m).1 = some q →
        ∀ qu ∈ (applyVoteMutation db m).questions, qu.id = q →
          qu.votes = netQ (applyVoteMutation db m).votes q)
      ∧ (∀ a, (mutTargets db m).2 = some a →
          ∀ an ∈ (applyVoteMutation db m).answers, an.id = a →
            an.votes = netA (applyVoteMutation db m).votes a) := by
  cases m with
  | create iv =>
      exact updateVoteCount_consistent
        { db with
          votes := db.votes ++
            [{ id := db.nextVoteId, userId := iv.userId, questionId := iv.questionId,
               answerId := iv.answerId, voteType := iv.voteType }],
          nextVoteId := db.nextVoteId + 1 }
        iv.questionId iv.answerId iv.voteType
  | flip id vt =>
      cases hf : db.votes.find? (fun v => v.id == id) with
      | none =>
          have htg : mutTargets db (VoteMutation.flip id vt) = (none, none) := by
            simp only [mutTargets, hf]
          rw [htg]
          refine ⟨?_, ?_⟩ <;> intro x hx <;> simp at hx
      | some v =>
          have hvid : v.id = id := by
            have := List.find?_some hf
            simpa using this
          have happ : applyVoteMutation db (VoteMutation.flip id vt)
              = updateVoteCount
                  { db with
                    votes := db.votes.map fun w =>
                      if w.id = id then { w with voteType := vt } else w }
                  v.questionId v.answerId vt := by
            simp only [applyVoteMutation, updateVote]
            rw [find?_id_map_flip, hf]
            simp [hvid]
          have htg : mutTargets db (VoteMutation.flip id vt)
              = (normTruthy v.questionId, normTruthy v.answerId) := by
            simp only [mutTargets, hf]
          rw [happ, htg]
          exact updateVoteCount_consistent _ v.questionId v.answerId vt
  | remove id =>
      cases hf : db.votes.find? (fun v => v.id == id) with
      | none =>
          have htg : mutTargets db (VoteMutation.remove id) = (none, none) := by
            simp only [mutTargets, hf]
          rw [htg]
          refine ⟨?_, ?_⟩ <;> intro x hx <;> simp at hx
      | some v =>
          have happ : applyVoteMutation db (VoteMutation.remove id)
              = updateVoteCount { db with votes := db.votes.filter fun w => w.id ≠ id }
                  v.questionId v.answerId
                  (if v.voteType == VoteType.up then VoteType.down else VoteType.up) := by
            simp only [applyVoteMutation, deleteVote, hf]
          have htg : mutTargets db (VoteMutation.remove id)
              = (normTruthy v.questionId, normTruthy v.answerId) := by
            simp only [mutTargets, hf]
          rw [happ, htg]
          exact updateVoteCount_consistent _ v.questionId v.answerId _

/-- C3 witness: inserting an up-vote on question 1 of the concrete state
leaves its stored tally equal to the recomputed net count. -/
theorem voteMutation_tally_witness :
    ({ exQuestion with votes := 1 } : Question).votes
      = netQ (applyVoteMutation exDBVote
          (VoteMutation.create
            { userId := 7, questionId := some 1, answerId := none,
              voteType := VoteType.up })).votes 1 :=
  (voteMutation_tally exDBVote
      (VoteMutation.create
        { userId := 7, questionId := some 1, answerId := none,
          voteType := VoteType.up })).1
    1 (by decide) { exQuestion with votes := 1 } (by decide) (by decide)

/-! ## C6: a vote-cast input with neither target set -/

/-- C6 counterexample: at a concrete state the no-target cast is not
rejected — it returns a `created` outcome and appends to the `votes`
table a row with both `questionId` and `answerId` null, so a statement did
reach the persistence substrate and no invalid-input signal was
produced. -/
theorem castVote_no_target_counterexample :
    ¬((castVote exDBVote 7 none none VoteType.up).1 = CastVoteOutcome.invalidInput
        ∧ (castVote exDBVote 7 none none VoteType.up).2 = exDBVote) := by
  decide

/-- C6 (amended): the operation performs no neither-target validation.
It first queries the substrate for an existing vote matching the user id
alone, and — when the user has no vote rows at all — inserts a Vote row
with both `questionId` and `answerId` null (`insertVoteSchema` permits
null targets); no invalid-input signal is produced. -/
theorem castVote_no_target (db : DB) (u : Nat) (vt : VoteType)
    (hnone : ∀ v ∈ db.votes, v.userId ≠ u) :
    castVote db u none none vt
      = (CastVoteOutcome.created
           { id := db.nextVoteId, userId := u, questionId := none, answerId := none,
             voteType := vt },
         { db with
           votes := db.votes ++
             [{ id := db.nextVoteId, userId := u, questionId := none, answerId := none,
                voteType := vt }],
           nextVoteId := db.nextVoteId + 1 }) := by
  have hgv : getVote db u none none = none := by
    unfold getVote
    refine List.find?_eq_none.mpr ?_
    intro v hv
    unfold voteMatches truthy
    simp [hnone v hv]
  unfold castVote
  rw [hgv]
  rfl

/-- C6 amended-theorem witness: the concrete no-target cast. -/
theorem castVote_no_target_witness :
    castVote exDBVote 7 none none VoteType.up
      = (CastVoteOutcome.created
           { id := 1, userId := 7, questionId := none, answerId := none,
             voteType := VoteType.up },
         { exDBVote with
           votes := [{ id := 1, userId := 7, questionId := none, answerId := none,
                       voteType := VoteType.up }],
           nextVoteId := 2 }) :=
  castVote_no_target exDBVote 7 VoteType.up (by decide)

/-! ## C9: when notifications are created -/

/-- Looking up a member of a duplicate-free-keyed list by its key finds
exactly that member. -/
theorem find?_of_mem_nodup {α : Type} (key : α → Nat) (l : List α) (x : α)
    (hx : x ∈ l) (hnodup : (l.map key).Nodup) :
    l.find? (fun y => key y == key x) = some x := by
  cases hf : l.find? (fun y => key y == key x) with
  | none =>
      exfalso
      have h1 := List.find?_eq_none.mp hf x hx
      simp at h1
  | some y =>
      have hy := List.find?_some hf
      have hymem := List.mem_of_find?_eq_some hf
      have heq : y = x := eq_of_nodup_key hnodup hymem hx (by simpa using hy)
      rw [heq]

/-- `getQuestion` on a state whose question lookup finds `q` returns the
read model built from `q` and the sorted answer list. -/
theorem getQuestion_of_find (db : DB) (id : Nat) (q : Question)
    (hfind : db.questions.find? (fun x => x.id == id) = some q) :
    getQuestion db id = some
      { id := q.id, title := q.title, description := q.description,
        authorId := q.authorId, tags := q.tags, votes := q.votes, views := q.views,
        acceptedAnswerId := q.acceptedAnswerId, createdAt := q.createdAt,
        answers := List.insertionSort createdDescA
          (db.answers.filter fun a => a.questionId == id),
        answersCount := (List.insertionSort createdDescA
          (db.answers.filter fun a => a.questionId == id)).length } := by
  unfold getQuestion
  rw [hfind]

/-- C9: a `question_answered` notification to the question's author is
created by answer creation exactly when the answer's author differs from
the question's author, and an `answer_accepted` notification to the
answer's author is created by the accept route exactly when the answer's
author differs from the acceptor (the question's author); in both cases a
self-notification is suppressed and nothing else is appended. -/
theorem notificationRules (db : DB) (uid : Nat) (content : String) (now : Nat)
    (q : Question) (hq : q ∈ db.questions)
    (hqnodup : (db.questions.map Question.id).Nodup)
    (a : Answer) (ha : a ∈ db.answers) (haq : a.questionId = q.id)
    (hanodup : (db.answers.map Answer.id).Nodup) :
    ((postAnswerRoute db q.id uid content now).map (fun d => d.notifications)
        = some (db.notifications ++
            (if q.authorId ≠ uid then
              [{ id := db.nextNotificationId, userId := q.authorId,
                 type := NotificationType.questionAnswered, title := "New Answer",
                 message := "Someone answered your question: " ++ q.title,
                 questionId := some q.id, answerId := some db.nextAnswerId,
                 isRead := false }]
             else [])))
      ∧ ((acceptAnswerRoute db q.id a.id q.authorId).map (fun d => d.notifications)
          = some (db.notifications ++
              (if a.authorId ≠ q.authorId then
                [{ id := db.nextNotificationId, userId := a.authorId,
                   type := NotificationType.answerAccepted, title := "Answer Accepted",
                   message := "Your answer was accepted for: " ++ q.title,
                   questionId := some q.id, answerId := some a.id,
                   isRead := false }]
               else []))) := by
  have hfq : db.questions.find? (fun y => y.id == q.id) = some q :=
    find?_of_mem_nodup Question.id db.questions q hq hqnodup
  constructor
  · have hany : (db.questions.any fun x => x.id == q.id) = true :=
      List.any_eq_true.mpr ⟨q, hq, by simp⟩
    simp only [postAnswerRoute, hany, if_true]
    rw [getQuestion_of_find (createAnswer db q.id uid content now).2 q.id q hfq]
    by_cases hne : q.authorId = uid <;>
      simp [createAnswer, createNotification, hne]
  · rw [acceptAnswerRoute, getQuestion_of_find db q.id q hfq]
    have hfa : (List.insertionSort createdDescA
        (db.answers.filter fun x => x.questionId == q.id)).find?
          (fun y => y.id == a.id) = some a := by
      refine find?_of_mem_nodup Answer.id _ a ?_ ?_
      · exact (List.mem_insertionSort createdDescA).mpr
          (List.mem_filter.mpr ⟨ha, by simp [haq]⟩)
      · exact ((List.perm_insertionSort createdDescA _).map Answer.id).nodup_iff.mpr
          (hanodup.sublist ((List.filter_sublist _).map Answer.id))
    simp only [hfa]
    by_cases hne : a.authorId = q.authorId <;>
      simp [acceptAnswer, createNotification, hne]

/-- C9 witness: in the concrete state, user 20 answers question 1 (author
10) — a `question_answered` notification for user 10 is appended. -/
theorem notificationRules_witness :
    (postAnswerRoute exDBNotif exQuestion.id 20 "Do Y" 7).map (fun d => d.notifications)
      = some (exDBNotif.notifications ++
          (if exQuestion.authorId ≠ 20 then
            [{ id := exDBNotif.nextNotificationId, userId := exQuestion.authorId,
               type := NotificationType.questionAnswered, title := "New Answer",
               message := "Someone answered your question: " ++ exQuestion.title,
               questionId := some exQuestion.id, answerId := some exDBNotif.nextAnswerId,
               isRead := false }]
           else [])) :=
  (notificationRules exDBNotif 20 "Do Y" 7 exQuestion (by decide) (by decide)
      exAnswer (by decide) (by decide) (by decide)).1

/-! ## C2: the vote toggle (same type cast twice) -/

/-- C2 on a question target: casting the same vote twice through the
route, from a state with no vote by the user on the question and a
consistent stored tally, restores the `votes`, `questions` and `answers`
tables exactly. -/
theorem castVote_toggle_q (db : DB) (u tq : Nat) (vt : VoteType)
    (htq0 : tq ≠ 0)
    (hfresh : ∀ v ∈ db.votes, v.id < db.nextVoteId)
    (hnone : ∀ v ∈ db.votes, ¬(v.userId = u ∧ v.questionId = some tq))
    (hcons : ∀ qu ∈ db.questions, qu.id = tq → qu.votes = netQ db.votes tq) :
    (castVote (castVote db u (some tq) none vt).2 u (some tq) none vt).2.votes = db.votes
      ∧ (castVote (castVote db u (some tq) none vt).2 u (some tq) none vt).2.questions
          = db.questions
      ∧ (castVote (castVote db u (some tq) none vt).2 u (some tq) none vt).2.answers
          = db.answers := by
  have htr : truthy (some tq) = true := by
    unfold truthy
    simp [htq0]
  have hfind1 : db.votes.find? (voteMatches u (some tq) none) = none := by
    refine List.find?_eq_none.mpr ?_
    intro v hv hm
    unfold voteMatches truthy at hm
    simp [htq0] at hm
    exact hnone v hv ⟨hm.1, hm.2.1⟩
  have hnorm : normTruthy (some tq) = some tq := by
    unfold normTruthy
    rw [htr]
    rfl
  have hstep1 : (castVote db u (some tq) none vt).2
      = updateVoteCount
          { db with
            votes := db.votes ++
              [{ id := db.nextVoteId, userId := u, questionId := some tq,
                 answerId := none, voteType := vt }],
            nextVoteId := db.nextVoteId + 1 }
          (some tq) none vt := by
    simp only [castVote, getVote, hfind1, insertVoteSchemaParse, createVote, hnorm]
    rfl
  have hv1 : (castVote db u (some tq) none vt).2.votes
      = db.votes ++
          [{ id := db.nextVoteId, userId := u, questionId := some tq,
             answerId := none, voteType := vt }] := by
    rw [hstep1, updateVoteCount_votes]
  have hq1 : (castVote db u (some tq) none vt).2.questions
      = db.questions.map fun qu =>
          if qu.id = tq then
            { qu with
              votes := netQ (db.votes ++
                [{ id := db.nextVoteId, userId := u, questionId := some tq,
                   answerId := none, voteType := vt }]) tq }
          else qu := by
    rw [hstep1, updateVoteCount_questions_some _ tq none vt htq0]
  have ha1 : (castVote db u (some tq) none vt).2.answers = db.answers := by
    rw [hstep1, updateVoteCount_answers_none]
  have hfind2 : (castVote db u (some tq) none vt).2.votes.find?
      (voteMatches u (some tq) none)
      = some { id := db.nextVoteId, userId := u, questionId := some tq,
               answerId := none, voteType := vt } := by
    rw [hv1, List.find?_append, hfind1]
    simp [voteMatches, htr, truthy]
  have hstep2gen : ∀ dbA : DB,
      dbA.votes.find? (voteMatches u (some tq) none)
          = some { id := db.nextVoteId, userId := u, questionId := some tq,
                   answerId := none, voteType := vt } →
      (castVote dbA u (some tq) none vt).2 = deleteVote dbA db.nextVoteId := by
    intro dbA hfa
    have hvt : ({ id := db.nextVoteId, userId := u, questionId := some tq,
                  answerId := none, voteType := vt } : Vote).voteType = vt := rfl
    simp only [castVote, getVote, hfa]
    simp
  have hstep2 : (castVote (castVote db u (some tq) none vt).2 u (some tq) none vt).2
      = deleteVote (castVote db u (some tq) none vt).2 db.nextVoteId :=
    hstep2gen _ hfind2
  have hfind3 : (castVote db u (some tq) none vt).2.votes.find?
      (fun v => v.id == db.nextVoteId)
      = some { id := db.nextVoteId, userId := u, questionId := some tq,
               answerId := none, voteType := vt } := by
    rw [hv1, List.find?_append]
    have h1 : db.votes.find? (fun v => v.id == db.nextVoteId) = none :=
      List.find?_eq_none.mpr fun v hv => by simp [Nat.ne_of_lt (hfresh v hv)]
    rw [h1]
    simp
  have hfilter : (castVote db u (some tq) none vt).2.votes.filter
      (fun v => v.id ≠ db.nextVoteId) = db.votes := by
    rw [hv1, List.filter_append]
    have h1 : db.votes.filter (fun v => v.id ≠ db.nextVoteId) = db.votes :=
      List.filter_eq_self.mpr fun v hv => by simp [Nat.ne_of_lt (hfresh v hv)]
    rw [h1]
    simp
  have hstep3 : deleteVote (castVote db u (some tq) none vt).2 db.nextVoteId
      = updateVoteCount
          { (castVote db u (some tq) none vt).2 with votes := db.votes }
          (some tq) none
          (if vt == VoteType.up then VoteType.down else VoteType.up) := by
    simp only [deleteVote, hfind3, hfilter]
  refine ⟨?_, ?_, ?_⟩
  · rw [hstep2, hstep3, updateVoteCount_votes]
  · rw [hstep2, hstep3, updateVoteCount_questions_some _ tq none _ htq0]
    have hXq : ({ (castVote db u (some tq) none vt).2 with votes := db.votes } : DB).questions
        = (castVote db u (some tq) none vt).2.questions := rfl
    have hXv : ({ (castVote db u (some tq) none vt).2 with votes := db.votes } : DB).votes
        = db.votes := rfl
    rw [hXq, hXv, hq1, List.map_map]
    refine map_eq_self_of ?_
    intro qu hm
    by_cases h : qu.id = tq
    · simp only [Function.comp_apply, h, if_true, if_pos]
      rw [← hcons qu hm h]
      rw [← h]
    · simp [Function.comp, h]
  · rw [hstep2, hstep3, updateVoteCount_answers_none]
    exact ha1

/-- C2 on an answer target: casting the same vote twice through the
route, from a state with no vote by the user on the answer and a
consistent stored tally, restores the `votes`, `questions` and `answers`
tables exactly. -/
theorem castVote_toggle_a (db : DB) (u ta : Nat) (vt : VoteType)
    (hta0 : ta ≠ 0)
    (hfresh : ∀ v ∈ db.votes, v.id < db.nextVoteId)
    (hnone : ∀ v ∈ db.votes, ¬(v.userId = u ∧ v.answerId = some ta))
    (hcons : ∀ an ∈ db.answers, an.id = ta → an.votes = netA db.votes ta) :
    (castVote (castVote db u none (some ta) vt).2 u none (some ta) vt).2.votes = db.votes
      ∧ (castVote (castVote db u none (some ta) vt).2 u none (some ta) vt).2.questions
          = db.questions
      ∧ (castVote (castVote db u none (some ta) vt).2 u none (some ta) vt).2.answers
          = db.answers := by
  have htr : truthy (some ta) = true := by
    unfold truthy
    simp [hta0]
  have hfind1 : db.votes.find? (voteMatches u none (some ta)) = none := by
    refine List.find?_eq_none.mpr ?_
    intro v hv hm
    unfold voteMatches truthy at hm
    simp [hta0] at hm
    exact hnone v hv ⟨hm.1, hm.2.1⟩
  have hnorm : normTruthy (some ta) = some ta := by
    unfold normTruthy
    rw [htr]
    rfl
  have hstep1 : (castVote db u none (some ta) vt).2
      = updateVoteCount
          { db with
            votes := db.votes ++
              [{ id := db.nextVoteId, userId := u, questionId := none,
                 answerId := some ta, voteType := vt }],
            nextVoteId := db.nextVoteId + 1 }
          none (some ta) vt := by
    simp only [castVote, getVote, hfind1, insertVoteSchemaParse, createVote, hnorm]
    rfl
  have hv1 : (castVote db u none (some ta) vt).2.votes
      = db.votes ++
          [{ id := db.nextVoteId, userId := u, questionId := none,
             answerId := some ta, voteType := vt }] := by
    rw [hstep1, updateVoteCount_votes]
  have ha1 : (castVote db u none (some ta) vt).2.answers
      = db.answers.map fun an =>
          if an.id = ta then
            { an with
              votes := netA (db.votes ++
                [{ id := db.nextVoteId, userId := u, questionId := none,
                   answerId := some ta, voteType := vt }]) ta }
          else an := by
    rw [hstep1, updateVoteCount_answers_some _ ta none vt hta0]
  have hq1 : (castVote db u none (some ta) vt).2.questions = db.questions := by
    rw [hstep1, updateVoteCount_questions_none]
  have hfind2 : (castVote db u none (some ta) vt).2.votes.find?
      (voteMatches u none (some ta))
      = some { id := db.nextVoteId, userId := u, questionId := none,
               answerId := some ta, voteType := vt } := by
    rw [hv1, List.find?_append, hfind1]
    simp [voteMatches, htr, truthy]
  have hstep2gen : ∀ dbA : DB,
      dbA.votes.find? (voteMatches u none (some ta))
          = some { id := db.nextVoteId, userId := u, questionId := none,
                   answerId := some ta, voteType := vt } →
      (castVote dbA u none (some ta) vt).2 = deleteVote dbA db.nextVoteId := by
    intro dbA hfa
    simp only [castVote, getVote, hfa]
    simp
  have hstep2 : (castVote (castVote db u none (some ta) vt).2 u none (some ta) vt).2
      = deleteVote (castVote db u none (some ta) vt).2 db.nextVoteId :=
    hstep2gen _ hfind2
  have hfind3 : (castVote db u none (some ta) vt).2.votes.find?
      (fun v => v.id == db.nextVoteId)
      = some { id := db.nextVoteId, userId := u, questionId := none,
               answerId := some ta, voteType := vt } := by
    rw [hv1, List.find?_append]
    have h1 : db.votes.find? (fun v => v.id == db.nextVoteId) = none :=
      List.find?_eq_none.mpr fun v hv => by simp [Nat.ne_of_lt (hfresh v hv)]
    rw [h1]
    simp
  have hfilter : (castVote db u none (some ta) vt).2.votes.filter
      (fun v => v.id ≠ db.nextVoteId) = db.votes := by
    rw [hv1, List.filter_append]
    have h1 : db.votes.filter (fun v => v.id ≠ db.nextVoteId) = db.votes :=
      List.filter_eq_self.mpr fun v hv => by simp [Nat.ne_of_lt (hfresh v hv)]
    rw [h1]
    simp
  have hstep3 : deleteVote (castVote db u none (some ta) vt).2 db.nextVoteId
      = updateVoteCount
          { (castVote db u none (some ta) vt).2 with votes := db.votes }
          none (some ta)
          (if vt == VoteType.up then VoteType.down else VoteType.up) := by
    simp only [deleteVote, hfind3, hfilter]
  refine ⟨?_, ?_, ?_⟩
  · rw [hstep2, hstep3, updateVoteCount_votes]
  · rw [hstep2, hstep3, updateVoteCount_questions_none]
    exact hq1
  · rw [hstep2, hstep3, updateVoteCount_answers_some _ ta none _ hta0]
    have hXa : ({ (castVote db u none (some ta) vt).2 with votes := db.votes } : DB).answers
        = (castVote db u none (some ta) vt).2.answers := rfl
    have hXv : ({ (castVote db u none (some ta) vt).2 with votes := db.votes } : DB).votes
        = db.votes := rfl
    rw [hXa, hXv, ha1, List.map_map]
    refine map_eq_self_of ?_
    intro an hm
    by_cases h : an.id = ta
    · simp only [Function.comp_apply, h, if_true, if_pos]
      rw [← hcons an hm h]
      rw [← h]
    · simp [Function.comp, h]

/-- C2: casting the same vote type twice in a row through the vote route,
on any target (question or answer), starting from a state where the user
has no vote row for that target and the target's stored tally is
consistent with the vote rows, leaves no vote row for the pair and
restores the `votes`, `questions` and `answers` tables (hence the
target's denormalized tally) to their pre-cast values. -/
theorem castVote_toggle (db : DB) (u : Nat) (oq oa : Option Nat) (vt : VoteType)
    (hfresh : ∀ v ∈ db.votes, v.id < db.nextVoteId)
    (htarget : (∃ q, oq = some q ∧ q ≠ 0 ∧ oa = none)
      ∨ (∃ a, oa = some a ∧ a ≠ 0 ∧ oq = none))
    (hnone : votesForTarget db.votes u oq oa = [])
    (hconsQ : ∀ q, oq = some q →
      ∀ qu ∈ db.questions, qu.id = q → qu.votes = netQ db.votes q)
    (hconsA : ∀ a, oa = some a →
      ∀ an ∈ db.answers, an.id = a → an.votes = netA db.votes a) :
    (castVote (castVote db u oq oa vt).2 u oq oa vt).2.votes = db.votes
      ∧ (castVote (castVote db u oq oa vt).2 u oq oa vt).2.questions = db.questions
      ∧ (castVote (castVote db u oq oa vt).2 u oq oa vt).2.answers = db.answers
      ∧ votesForTarget (castVote (castVote db u oq oa vt).2 u oq oa vt).2.votes u oq oa
          = [] := by
  rcases htarget with ⟨tq, rfl, htq0, rfl⟩ | ⟨ta, rfl, hta0, rfl⟩
  · have hnone' : ∀ v ∈ db.votes, ¬(v.userId = u ∧ v.questionId = some tq) := by
      intro v hv hcontr
      have hnp := List.filter_eq_nil_iff.mp hnone v hv
      apply hnp
      unfold truthy
      simp [htq0, hcontr.1, hcontr.2]
    have main := castVote_toggle_q db u tq vt htq0 hfresh hnone' (hconsQ tq rfl)
    exact ⟨main.1, main.2.1, main.2.2, by rw [main.1]; exact hnone⟩
  · have hnone' : ∀ v ∈ db.votes, ¬(v.userId = u ∧ v.answerId = some ta) := by
      intro v hv hcontr
      have hnp := List.filter_eq_nil_iff.mp hnone v hv
      apply hnp
      unfold truthy
      simp [hta0, hcontr.1, hcontr.2]
    have main := castVote_toggle_a db u ta vt hta0 hfresh hnone' (hconsA ta rfl)
    exact ⟨main.1, main.2.1, main.2.2, by rw [main.1]; exact hnone⟩

/-- C2 witness: user 7 up-votes question 1 of the concrete state twice —
the vote row disappears and the tables return to their initial values. -/
theorem castVote_toggle_witness :
    (castVote (castVote exDBVote 7 (some 1) none VoteType.up).2
        7 (some 1) none VoteType.up).2.votes = exDBVote.votes
      ∧ (castVote (castVote exDBVote 7 (some 1) none VoteType.up).2
          7 (some 1) none VoteType.up).2.questions = exDBVote.questions
      ∧ (castVote (castVote exDBVote 7 (some 1) none VoteType.up).2
          7 (some 1) none VoteType.up).2.answers = exDBVote.answers
      ∧ votesForTarget
          (castVote (castVote exDBVote 7 (some 1) none VoteType.up).2
            7 (some 1) none VoteType.up).2.votes 7 (some 1) none = [] :=
  castVote_toggle exDBVote 7 (some 1) none VoteType.up (by decide)
    (Or.inl ⟨1, rfl, by decide, rfl⟩) (by decide)
    (by
      intro q hq
      cases hq
      decide)
    (by
      intro a ha
      cases ha)

end StackIt
